import Mathlib

/-!
# Verification of the RFM customer-segmentation core (`src/analytics/rfm.py`)

Shallow embedding of the RFM (Recency, Frequency, Monetary) scoring engine.

Modelling conventions:
* `datetime` values are integers counting seconds; `timedelta.days` is floor
  division by 86400 (`Int.fdiv`), matching Python's normalized timedeltas.
  A missing `transaction_date` key is `Option.none`; the `datetime.min`
  default used as a `max` key is modelled as the bottom element of
  `WithBot Int` (it is below every real date).
* `Decimal` amounts and the pandas quantile arithmetic are modelled as exact
  rationals (`Rat`).  The one place the Python pipeline leaves exact
  arithmetic — `float(monetary)` when building the per-customer DataFrame
  rows — is the subject of a dedicated numerical analysis below.
* `float('inf')`, the "customer has no transactions" sentinel returned by
  `calculate_recency`, is modelled as `Option.none` (the code only ever
  compares it against `float('inf')` before discarding it).
* Dictionaries describing transactions are modelled by the `Transaction`
  structure; `t.get("customer_id")` truthiness is the test
  `t.customer_id ≠ ""`.
* `pd.DataFrame([])` has no columns, so `df["segment"]` raises `KeyError`;
  `get_segment_summary` is therefore modelled as returning `Option`, with
  `none` for the raising execution.
-/

set_option maxHeartbeats 1000000

/-- A purchase transaction record as consumed by `RFMAnalyzer`
(dictionary with keys `customer_id`, `transaction_date`, `total_amount`). -/
structure Transaction where
  customer_id : String
  transaction_date : Option Int
  total_amount : Rat
deriving DecidableEq

/-- RFM score record for one customer (dataclass `RFMScore`). -/
structure RFMScore where
  customer_id : String
  recency : Int
  frequency : Nat
  monetary : Rat
  r_score : Int
  f_score : Int
  m_score : Int
deriving DecidableEq

/-- The `RFMScore.segment` property: ordered elif-chain over the three
scores, first match wins (`rfm.py` lines 27-72). -/
def segmentOf (r_score f_score m_score : Int) : String :=
  if 4 ≤ r_score ∧ 4 ≤ f_score ∧ 4 ≤ m_score then "Champions"
  else if 4 ≤ f_score ∧ 3 ≤ m_score then "Loyal Customers"
  else if 4 ≤ r_score ∧ 2 ≤ f_score ∧ 2 ≤ m_score then "Potential Loyalists"
  else if 4 ≤ r_score ∧ f_score ≤ 2 then "New Customers"
  else if r_score ≤ 2 ∧ 3 ≤ f_score ∧ 3 ≤ m_score then "At Risk"
  else if r_score ≤ 2 ∧ 4 ≤ f_score ∧ 4 ≤ m_score then "Can\x27t Lose Them"
  else if r_score ≤ 2 ∧ f_score ≤ 2 ∧ 2 ≤ m_score then "Hibernating"
  else if r_score ≤ 2 ∧ f_score ≤ 2 ∧ m_score ≤ 2 then "Lost"
  else if r_score ≤ 3 ∧ f_score ≤ 3 then "About to Sleep"
  else if 3 ≤ r_score ∧ f_score ≤ 3 ∧ m_score ≤ 3 then "Promising"
  else "Need Attention"

/-- `RFMScore.segment` reads only the three score fields. -/
def RFMScore.segment (s : RFMScore) : String :=
  segmentOf s.r_score s.f_score s.m_score

/-- `RFMScore.rfm_score`: the three digits concatenated as a string. -/
def RFMScore.rfm_string (s : RFMScore) : String :=
  toString s.r_score ++ toString s.f_score ++ toString s.m_score

/-- `timedelta.days` of the difference of two second-counted datetimes:
floor division by 86400 (Python timedeltas are normalized downward). -/
def daysBetween (a b : Int) : Int :=
  (a - b).fdiv 86400

/-- Sort key used by `calculate_recency`:
`t.get("transaction_date", datetime.min)`, with `datetime.min` below every
real date. -/
def dateKey (t : Transaction) : WithBot Int :=
  match t.transaction_date with
  | none => ⊥
  | some d => (d : WithBot Int)

/-- Python's `max(items, key=...)`: left fold keeping the current best and
replacing it only on a strictly greater key (so the first maximal element
wins ties). -/
def maxByDate : List Transaction → Option Transaction
  | [] => none
  | t :: ts => some (ts.foldl (fun best x => if dateKey best < dateKey x then x else best) t)

/-- `RFMAnalyzer.calculate_recency`: days since the most recent purchase of
the customer, `none` (the `float('inf')` sentinel) when the customer has no
transactions (`customer_transactions`, the filter below, is empty) or the
most recent one carries no date. -/
def calculate_recency (reference_date : Int) (customer_id : String)
    (transactions : List Transaction) : Option Int :=
  match maxByDate (transactions.filter (fun t => t.customer_id == customer_id)) with
  | none => none
  | some most_recent =>
    match most_recent.transaction_date with
    | none => none
    | some last_purchase_date => some (daysBetween reference_date last_purchase_date)

/-- `RFMAnalyzer.calculate_frequency`: number of the customer's transactions. -/
def calculate_frequency (customer_id : String) (transactions : List Transaction) : Nat :=
  (transactions.filter (fun t => t.customer_id == customer_id)).length

/-- `RFMAnalyzer.calculate_monetary`: running decimal sum of `total_amount`
over the customer's transactions, starting from `Decimal("0.00")`. -/
def calculate_monetary (customer_id : String) (transactions : List Transaction) : Rat :=
  (transactions.filter (fun t => t.customer_id == customer_id)).foldl
    (fun total t => total + t.total_amount) 0

/-- The four quantile boundaries (20/40/60/80th percentile) handed to
`_calculate_score` as `quantiles[0] .. quantiles[3]`. -/
structure Quantiles where
  q0 : Rat
  q1 : Rat
  q2 : Rat
  q3 : Rat
deriving DecidableEq

/-- `RFMAnalyzer._calculate_score`: 1-5 score of a value against the four
boundaries, by the elif-chain of `value <= quantiles[i]` tests. -/
def calculate_score (value : Rat) (quantiles : Quantiles) : Int :=
  if value ≤ quantiles.q0 then 1
  else if value ≤ quantiles.q1 then 2
  else if value ≤ quantiles.q2 then 3
  else if value ≤ quantiles.q3 then 4
  else 5

/-- One linearly interpolated population quantile, as computed by
`Series.quantile` (numpy `linear` method): on the ascending sorted sample
`s` of size `n`, position `h = p * (n - 1)`, result
`s[⌊h⌋] + (h - ⌊h⌋) * (s[⌊h⌋ + 1] - s[⌊h⌋])`. -/
def quantileAt (sorted : List Rat) (p : Rat) : Rat :=
  let n := sorted.length
  let h : Rat := p * ((n : Rat) - 1)
  let i : Nat := ⌊h⌋.toNat
  let g : Rat := h - (i : Rat)
  let xi := sorted.getD i 0
  let xi1 := sorted.getD (i + 1) xi
  xi + g * (xi1 - xi)

/-- `Series.quantile([0.2, 0.4, 0.6, 0.8])` of a list of metric values. -/
def metricQuantiles (values : List Rat) : Quantiles :=
  let s := values.insertionSort (· ≤ ·)
  ⟨quantileAt s (1/5), quantileAt s (2/5), quantileAt s (3/5), quantileAt s (4/5)⟩

/-- One row of the intermediate `rfm_data` list built by
`calculate_rfm_scores`. -/
structure RfmRow where
  customer_id : String
  recency : Int
  frequency : Nat
  monetary : Rat
deriving DecidableEq

/-- `list(set(t.get("customer_id") for t in transactions if t.get("customer_id")))`:
the distinct non-empty customer ids of the transaction list. -/
def customerIds (transactions : List Transaction) : List String :=
  (transactions.filterMap
    (fun t => if t.customer_id ≠ "" then some t.customer_id else none)).dedup

/-- The `rfm_data` rows: per-customer metrics, skipping customers whose
recency is the infinity sentinel. -/
def rfmRows (reference_date : Int) (transactions : List Transaction) : List RfmRow :=
  (customerIds transactions).filterMap (fun customer_id =>
    match calculate_recency reference_date customer_id transactions with
    | none => none
    | some recency =>
      some { customer_id := customer_id
             recency := recency
             frequency := calculate_frequency customer_id transactions
             monetary := calculate_monetary customer_id transactions })

/-- Quantile boundaries of the surviving population's recency values. -/
def recencyQuantilesOf (reference_date : Int) (transactions : List Transaction) : Quantiles :=
  metricQuantiles ((rfmRows reference_date transactions).map (fun r => (r.recency : Rat)))

/-- Quantile boundaries of the surviving population's frequency values. -/
def frequencyQuantilesOf (reference_date : Int) (transactions : List Transaction) : Quantiles :=
  metricQuantiles ((rfmRows reference_date transactions).map (fun r => (r.frequency : Rat)))

/-- Quantile boundaries of the surviving population's monetary values. -/
def monetaryQuantilesOf (reference_date : Int) (transactions : List Transaction) : Quantiles :=
  metricQuantiles ((rfmRows reference_date transactions).map (fun r => r.monetary))

/-- Loop body of the final scoring loop of `calculate_rfm_scores`: one
`RFMScore` from one `rfm_data` row (recency score inverted, frequency and
monetary scores used as computed). -/
def scoreRow (recency_quantiles frequency_quantiles monetary_quantiles : Quantiles)
    (row : RfmRow) : RFMScore :=
  { customer_id := row.customer_id
    recency := row.recency
    frequency := row.frequency
    monetary := row.monetary
    r_score := 6 - calculate_score (row.recency : Rat) recency_quantiles
    f_score := calculate_score (row.frequency : Rat) frequency_quantiles
    m_score := calculate_score row.monetary monetary_quantiles }

/-- `RFMAnalyzer.calculate_rfm_scores`: the full scoring pipeline
(`rfm_data` is `rfmRows reference_date transactions`). -/
def calculate_rfm_scores (reference_date : Int) (transactions : List Transaction) :
    List RFMScore :=
  if customerIds transactions = [] then []
  else if rfmRows reference_date transactions = [] then []
  else
    (rfmRows reference_date transactions).map (scoreRow
      (recencyQuantilesOf reference_date transactions)
      (frequencyQuantilesOf reference_date transactions)
      (monetaryQuantilesOf reference_date transactions))

/-- Python's banker's rounding (`round`) to an integer. -/
def roundHalfEven (x : Rat) : Int :=
  let f : Int := ⌊x⌋
  let r : Rat := x - (f : Rat)
  if r < 1/2 then f
  else if 1/2 < r then f + 1
  else if f % 2 = 0 then f else f + 1

/-- `round(x, 2)`: banker's rounding to two decimal places. -/
def round2 (x : Rat) : Rat :=
  (roundHalfEven (x * 100) : Rat) / 100

/-- Per-segment summary statistics emitted by `get_segment_summary`. -/
structure SegmentStats where
  count : Nat
  avg_recency : Rat
  avg_frequency : Rat
  avg_monetary : Rat
  total_monetary : Rat
deriving DecidableEq

/-- `RFMAnalyzer.get_segment_summary`: group the scores by segment label
(in first-appearance order, as `Series.unique` does) and aggregate.  On an
empty score list `pd.DataFrame([])` has no `segment` column and
`df["segment"]` raises `KeyError`; that execution is `none`. -/
def get_segment_summary (scores : List RFMScore) : Option (List (String × SegmentStats)) :=
  if scores.isEmpty then none
  else
    let segments := (scores.map RFMScore.segment).eraseDups
    some (segments.map (fun seg =>
      let seg_scores := scores.filter (fun s => s.segment == seg)
      let n : Rat := (seg_scores.length : Rat)
      let monetary_sum : Rat := (seg_scores.map (fun s => s.monetary)).sum
      (seg,
       { count := seg_scores.length
         avg_recency := round2 (((seg_scores.map (fun s => (s.recency : Rat))).sum) / n)
         avg_frequency := round2 (((seg_scores.map (fun s => (s.frequency : Rat))).sum) / n)
         avg_monetary := round2 (monetary_sum / n)
         total_monetary := round2 monetary_sum })))

/-! ## Spec-side restatements -/

/-- The ordered decision list of spec section 4.2, rules 1-10 (rule 11 is
the default). -/
def segmentRules : List ((Int → Int → Int → Bool) × String) :=
  [ (fun r f m => decide (4 ≤ r ∧ 4 ≤ f ∧ 4 ≤ m), "Champions"),
    (fun _ f m => decide (4 ≤ f ∧ 3 ≤ m), "Loyal Customers"),
    (fun r f m => decide (4 ≤ r ∧ 2 ≤ f ∧ 2 ≤ m), "Potential Loyalists"),
    (fun r f _ => decide (4 ≤ r ∧ f ≤ 2), "New Customers"),
    (fun r f m => decide (r ≤ 2 ∧ 3 ≤ f ∧ 3 ≤ m), "At Risk"),
    (fun r f m => decide (r ≤ 2 ∧ 4 ≤ f ∧ 4 ≤ m), "Can\x27t Lose Them"),
    (fun r f m => decide (r ≤ 2 ∧ f ≤ 2 ∧ 2 ≤ m), "Hibernating"),
    (fun r f m => decide (r ≤ 2 ∧ f ≤ 2 ∧ m ≤ 2), "Lost"),
    (fun r f _ => decide (r ≤ 3 ∧ f ≤ 3), "About to Sleep"),
    (fun r f m => decide (3 ≤ r ∧ f ≤ 3 ∧ m ≤ 3), "Promising") ]

/-- Top-to-bottom first-match-wins evaluation of a decision list, falling
through to "Need Attention" (rule 11). -/
def firstMatchSegment (r f m : Int) : List ((Int → Int → Int → Bool) × String) → String
  | [] => "Need Attention"
  | rule :: rest => if rule.1 r f m then rule.2 else firstMatchSegment r f m rest

/-- Spec section 4.2 step 5, stated from the spec wording: value ≤
boundary[0] → 1; ≤ boundary[1] → 2; ≤ boundary[2] → 3; ≤ boundary[3] → 4;
else 5. -/
def scoreByBoundaries (value : Rat) (boundary : Quantiles) : Int :=
  if value ≤ boundary.q0 then 1
  else if value ≤ boundary.q1 then 2
  else if value ≤ boundary.q2 then 3
  else if value ≤ boundary.q3 then 4
  else 5

/-! ## Helper lemmas -/

theorem calculate_score_bounds (value : Rat) (q : Quantiles) :
    1 ≤ calculate_score value q ∧ calculate_score value q ≤ 5 := by
  unfold calculate_score
  split_ifs <;> norm_num

theorem calculate_score_mono (v1 v2 : Rat) (q : Quantiles) (h : v1 ≤ v2) :
    calculate_score v1 q ≤ calculate_score v2 q := by
  unfold calculate_score
  split_ifs <;> linarith

theorem calculate_rfm_scores_eq_map (reference_date : Int) (transactions : List Transaction) :
    calculate_rfm_scores reference_date transactions =
      (rfmRows reference_date transactions).map
        (scoreRow (recencyQuantilesOf reference_date transactions)
          (frequencyQuantilesOf reference_date transactions)
          (monetaryQuantilesOf reference_date transactions)) := by
  unfold calculate_rfm_scores
  split_ifs with h1 h2
  · simp [rfmRows, h1]
  · simp [h2]
  · rfl

theorem mem_calculate_rfm_scores {reference_date : Int} {transactions : List Transaction}
    {s : RFMScore} (h : s ∈ calculate_rfm_scores reference_date transactions) :
    ∃ row ∈ rfmRows reference_date transactions,
      s = scoreRow (recencyQuantilesOf reference_date transactions)
        (frequencyQuantilesOf reference_date transactions)
        (monetaryQuantilesOf reference_date transactions) row := by
  rw [calculate_rfm_scores_eq_map] at h
  obtain ⟨row, hrow, hs⟩ := List.mem_map.mp h
  exact ⟨row, hrow, hs.symm⟩

theorem foldl_add_eq_sum (f : Transaction → Rat) (l : List Transaction) (init : Rat) :
    l.foldl (fun total t => total + f t) init = init + (l.map f).sum := by
  induction l generalizing init with
  | nil => simp
  | cons t ts ih => simp [ih, add_assoc]

/-! ## Claim C1 -/

/-- Claim C1, counterexample: the claim asserts `(4,5,4) ↦ "Loyal Customers"`
and `(2,4,3) ↦ "At Risk"`, but the segment method classifies the repo's own
test fixtures `(4,5,4)` as "Champions" (rule 1: r≥4 ∧ f≥4 ∧ m≥4) and
`(2,4,3)` as "Loyal Customers" (rule 2: f≥4 ∧ m≥3). -/
theorem segment_examples_counterexample :
    (RFMScore.segment ⟨"CUST002", 10, 80, 1200, 4, 5, 4⟩ = "Champions" ∧
      "Champions" ≠ "Loyal Customers") ∧
    (RFMScore.segment ⟨"CUST003", 90, 50, 800, 2, 4, 3⟩ = "Loyal Customers" ∧
      "Loyal Customers" ≠ "At Risk") := by
  decide

/-- Claim C1 (amended): segment classification is the pure deterministic
function of `(r_score, f_score, m_score)` given by evaluating the eleven-rule
ordered decision list of spec section 4.2 top-to-bottom with first-match-wins
semantics; `(5,5,5)` and `(4,5,4)` yield "Champions", `(2,4,3)` yields
"Loyal Customers", `(1,1,1)` yields "Lost", and a triple matching no rule
1-10 yields "Need Attention". -/
theorem segment_decision_list_and_examples :
    (∀ s : RFMScore, s.segment = segmentOf s.r_score s.f_score s.m_score) ∧
    (∀ r f m : Int, segmentOf r f m = firstMatchSegment r f m segmentRules) ∧
    segmentOf 5 5 5 = "Champions" ∧
    segmentOf 4 5 4 = "Champions" ∧
    segmentOf 2 4 3 = "Loyal Customers" ∧
    segmentOf 1 1 1 = "Lost" ∧
    (∀ r f m : Int, (segmentRules.all fun rule => !rule.1 r f m) = true →
      segmentOf r f m = "Need Attention") := by
  refine ⟨fun s => rfl, fun r f m => ?_, by decide, by decide, by decide, by decide,
    fun r f m h => ?_⟩
  · simp only [segmentRules, firstMatchSegment, decide_eq_true_eq]
    rfl
  · simp only [segmentRules, List.all_cons, List.all_nil, Bool.and_eq_true,
      Bool.not_eq_true', decide_eq_false_iff_not] at h
    obtain ⟨h1, h2, h3, h4, h5, h6, h7, h8, h9, h10, -⟩ := h
    unfold segmentOf
    split_ifs
    rfl

/-- Claim C1, witness: the decision-list equivalence and the default rule
evaluated at concrete triples. -/
theorem segment_decision_list_and_examples_witness :
    segmentOf 3 4 2 = firstMatchSegment 3 4 2 segmentRules ∧
    ((segmentRules.all fun rule => !rule.1 3 4 2) = true ∧
      segmentOf 3 4 2 = "Need Attention") :=
  ⟨segment_decision_list_and_examples.2.1 3 4 2,
   by decide,
   segment_decision_list_and_examples.2.2.2.2.2.2 3 4 2 (by decide)⟩

/-! ## Claim C2 -/

/-- Claim C2, counterexample: the claim asserts that a triple with
`r ≤ 2 ∧ f ≥ 4 ∧ m ≥ 4` is classified "At Risk"; on `(2,4,4)` the segment
method returns "Loyal Customers" (rule 2 fires before rule 5). -/
theorem cant_lose_them_counterexample :
    (2 : Int) ≤ 2 ∧ (4 : Int) ≥ 4 ∧ (4 : Int) ≥ 4 ∧
    segmentOf 2 4 4 = "Loyal Customers" ∧ "Loyal Customers" ≠ "At Risk" := by
  decide

/-- Claim C2 (amended): rule 6 is dead code — the segment function never
returns "Can\x27t Lose Them" — because any triple satisfying rule 6's
condition `r≤2 ∧ f≥4 ∧ m≥4` already satisfies rule 5's condition
`f≥3 ∧ m≥3` and, earlier still, rule 2's condition `f≥4 ∧ m≥3`, so it is
classified "Loyal Customers". -/
theorem cant_lose_them_dead_code :
    (∀ r f m : Int, segmentOf r f m ≠ "Can\x27t Lose Them") ∧
    (∀ r f m : Int, r ≤ 2 → 4 ≤ f → 4 ≤ m →
      ((3 ≤ f ∧ 3 ≤ m) ∧ (4 ≤ f ∧ 3 ≤ m)) ∧ segmentOf r f m = "Loyal Customers") := by
  constructor
  · intro r f m
    unfold segmentOf
    split_ifs <;> first | decide | omega
  · intro r f m hr hf hm
    refine ⟨⟨⟨by omega, by omega⟩, hf, by omega⟩, ?_⟩
    unfold segmentOf
    split_ifs <;> first | rfl | omega

/-- Claim C2, witness: the dead-code fact and the reclassification at the
concrete triple `(2,4,4)`. -/
theorem cant_lose_them_dead_code_witness :
    segmentOf 2 4 4 ≠ "Can\x27t Lose Them" ∧ segmentOf 2 4 4 = "Loyal Customers" :=
  ⟨cant_lose_them_dead_code.1 2 4 4,
   (cant_lose_them_dead_code.2 2 4 4 (by norm_num) (by norm_num) (by norm_num)).2⟩

/-! ## Claim C7 -/

/-- Claim C7: with the four quantile boundaries held fixed, the scoring map
is monotone — for `v1 ≤ v2`, `score(v1) ≤ score(v2)`, hence the inverted
recency score `6 - score` is monotonically non-increasing while the
frequency and monetary scores are monotonically non-decreasing. -/
theorem score_monotone_in_value :
    ∀ (v1 v2 : Rat) (q : Quantiles), v1 ≤ v2 →
      calculate_score v1 q ≤ calculate_score v2 q ∧
      6 - calculate_score v2 q ≤ 6 - calculate_score v1 q := by
  intro v1 v2 q h
  have hm := calculate_score_mono v1 v2 q h
  exact ⟨hm, by omega⟩

/-- Claim C7, witness: monotonicity evaluated at `v1 = 1 ≤ v2 = 3` against
the boundaries `(1, 2, 3, 4)`. -/
theorem score_monotone_in_value_witness :
    calculate_score 1 ⟨1, 2, 3, 4⟩ ≤ calculate_score 3 ⟨1, 2, 3, 4⟩ ∧
    6 - calculate_score 3 ⟨1, 2, 3, 4⟩ ≤ 6 - calculate_score 1 ⟨1, 2, 3, 4⟩ :=
  score_monotone_in_value 1 3 ⟨1, 2, 3, 4⟩ (by norm_num)

/-! ## Claim C8 -/

/-- Claim C8: `calculate_frequency` returns exactly the number of records
whose `customer_id` equals the given id, and `calculate_monetary` returns
exactly the fixed-point sum of the `total_amount` values of those records
(0.00 when there are none). -/
theorem frequency_monetary_exact :
    ∀ (customer_id : String) (transactions : List Transaction),
      calculate_frequency customer_id transactions =
        transactions.countP (fun t => decide (t.customer_id = customer_id)) ∧
      calculate_monetary customer_id transactions =
        ((transactions.filter (fun t => t.customer_id == customer_id)).map
          Transaction.total_amount).sum ∧
      ((∀ t ∈ transactions, t.customer_id ≠ customer_id) →
        calculate_monetary customer_id transactions = 0) := by
  intro customer_id transactions
  have hpred : ∀ t : Transaction,
      (t.customer_id == customer_id) = decide (t.customer_id = customer_id) := by
    intro t
    by_cases h : t.customer_id = customer_id <;> simp [h]
  refine ⟨?_, ?_, fun hnone => ?_⟩
  · simp [calculate_frequency, List.countP_eq_length_filter, hpred]
  · simp [calculate_monetary, foldl_add_eq_sum]
  · have hfil : transactions.filter (fun t => t.customer_id == customer_id) = [] := by
      simp only [List.filter_eq_nil_iff, beq_iff_eq]
      exact hnone
    simp [calculate_monetary, hfil]

/-- Two fixed transactions used to instantiate hypothesis-carrying theorems. -/
def sampleTransactions : List Transaction :=
  [⟨"A", some 0, 5⟩, ⟨"B", some 0, 7⟩]

/-- Claim C8, witness: the metric equations evaluated on a concrete
two-customer transaction list, including the no-matching-records case. -/
theorem frequency_monetary_exact_witness :
    calculate_frequency "A" sampleTransactions =
      sampleTransactions.countP (fun t => decide (t.customer_id = "A")) ∧
    calculate_monetary "C" sampleTransactions = 0 :=
  ⟨(frequency_monetary_exact "A" sampleTransactions).1,
   (frequency_monetary_exact "C" sampleTransactions).2.2 (by decide)⟩

/-! ## Concrete evaluation of the pipeline on the sample transactions -/

theorem sample_ids : customerIds sampleTransactions = ["A", "B"] := by decide

theorem sample_rows : rfmRows 0 sampleTransactions = [⟨"A", 0, 1, 5⟩, ⟨"B", 0, 1, 7⟩] := by
  have hBA : (("B" : String) == "A") = false := by decide
  have hAA : (("A" : String) == "A") = true := by decide
  have hAB : (("A" : String) == "B") = false := by decide
  have hBB : (("B" : String) == "B") = true := by decide
  unfold rfmRows
  rw [sample_ids]
  simp only [List.filterMap_cons, List.filterMap_nil]
  norm_num [calculate_recency, calculate_frequency, calculate_monetary,
    sampleTransactions, List.filter, maxByDate, dateKey, daysBetween,
    hBA, hAA, hAB, hBB]

theorem sample_rq : recencyQuantilesOf 0 sampleTransactions = ⟨0, 0, 0, 0⟩ := by
  rw [recencyQuantilesOf, sample_rows]
  norm_num [metricQuantiles, quantileAt, List.insertionSort, List.orderedInsert, List.getD]

theorem sample_fq : frequencyQuantilesOf 0 sampleTransactions = ⟨1, 1, 1, 1⟩ := by
  rw [frequencyQuantilesOf, sample_rows]
  norm_num [metricQuantiles, quantileAt, List.insertionSort, List.orderedInsert, List.getD]

theorem sample_mq : monetaryQuantilesOf 0 sampleTransactions = ⟨27/5, 29/5, 31/5, 33/5⟩ := by
  rw [monetaryQuantilesOf, sample_rows]
  norm_num [metricQuantiles, quantileAt, List.insertionSort, List.orderedInsert, List.getD]

theorem sample_scores_eq :
    calculate_rfm_scores 0 sampleTransactions =
      [⟨"A", 0, 1, 5, 5, 1, 1⟩, ⟨"B", 0, 1, 7, 5, 1, 5⟩] := by
  rw [calculate_rfm_scores_eq_map, sample_rows, sample_rq, sample_fq, sample_mq]
  norm_num [scoreRow, calculate_score]

/-- The first score emitted for the sample transactions. -/
def sampleScoreA : RFMScore := ⟨"A", 0, 1, 5, 5, 1, 1⟩

theorem sample_memA : sampleScoreA ∈ calculate_rfm_scores 0 sampleTransactions := by
  rw [sample_scores_eq]
  exact List.mem_cons_self _ _

/-! ## Claim C5 -/

/-- Claim C5: each raw metric of an emitted score is mapped to its 1-5 score
against that metric's four quantile boundaries by the rule value ≤ b0 → 1,
≤ b1 → 2, ≤ b2 → 3, ≤ b3 → 4, else 5 (`scoreByBoundaries` restates the rule
in the spec wording); the emitted `r_score` is 6 minus the raw quintile
score of recency, while `f_score` and `m_score` are the raw quintile scores
of frequency and monetary unchanged. -/
theorem emitted_scores_from_quantile_rule :
    (∀ (value : Rat) (boundary : Quantiles),
      calculate_score value boundary = scoreByBoundaries value boundary) ∧
    ∀ (reference_date : Int) (transactions : List Transaction) (s : RFMScore),
      s ∈ calculate_rfm_scores reference_date transactions →
      s.r_score = 6 - calculate_score (s.recency : Rat)
          (recencyQuantilesOf reference_date transactions) ∧
      s.f_score = calculate_score (s.frequency : Rat)
          (frequencyQuantilesOf reference_date transactions) ∧
      s.m_score = calculate_score s.monetary
          (monetaryQuantilesOf reference_date transactions) := by
  refine ⟨fun v b => rfl, ?_⟩
  intro reference_date transactions s hs
  obtain ⟨row, hrow, rfl⟩ := mem_calculate_rfm_scores hs
  exact ⟨rfl, rfl, rfl⟩

/-- Claim C5, witness: the quantile scoring rule instantiated on the sample
transactions at the emitted score of customer "A". -/
theorem emitted_scores_from_quantile_rule_witness :
    sampleScoreA ∈ calculate_rfm_scores 0 sampleTransactions ∧
    (sampleScoreA.r_score = 6 - calculate_score (sampleScoreA.recency : Rat)
        (recencyQuantilesOf 0 sampleTransactions) ∧
      sampleScoreA.f_score = calculate_score (sampleScoreA.frequency : Rat)
        (frequencyQuantilesOf 0 sampleTransactions) ∧
      sampleScoreA.m_score = calculate_score sampleScoreA.monetary
        (monetaryQuantilesOf 0 sampleTransactions)) :=
  ⟨sample_memA,
   emitted_scores_from_quantile_rule.2 0 sampleTransactions sampleScoreA sample_memA⟩

/-! ## Claim C6 -/

/-- Claim C6: for every transaction list, each emitted RFMScore has
`r_score`, `f_score` and `m_score` in {1,2,3,4,5}. -/
theorem emitted_scores_in_range :
    ∀ (reference_date : Int) (transactions : List Transaction) (s : RFMScore),
      s ∈ calculate_rfm_scores reference_date transactions →
      (1 ≤ s.r_score ∧ s.r_score ≤ 5) ∧ (1 ≤ s.f_score ∧ s.f_score ≤ 5) ∧
        (1 ≤ s.m_score ∧ s.m_score ≤ 5) := by
  intro reference_date transactions s hs
  obtain ⟨row, hrow, rfl⟩ := mem_calculate_rfm_scores hs
  have h1 := calculate_score_bounds (row.recency : Rat)
    (recencyQuantilesOf reference_date transactions)
  have h2 := calculate_score_bounds (row.frequency : Rat)
    (frequencyQuantilesOf reference_date transactions)
  have h3 := calculate_score_bounds row.monetary
    (monetaryQuantilesOf reference_date transactions)
  simp only [scoreRow]
  omega

/-- Claim C6, witness: the range invariant instantiated on the sample
transactions at the emitted score of customer "A". -/
theorem emitted_scores_in_range_witness :
    sampleScoreA ∈ calculate_rfm_scores 0 sampleTransactions ∧
    ((1 ≤ sampleScoreA.r_score ∧ sampleScoreA.r_score ≤ 5) ∧
      (1 ≤ sampleScoreA.f_score ∧ sampleScoreA.f_score ≤ 5) ∧
      (1 ≤ sampleScoreA.m_score ∧ sampleScoreA.m_score ≤ 5)) :=
  ⟨sample_memA, emitted_scores_in_range 0 sampleTransactions sampleScoreA sample_memA⟩

/-! ## Claim C4 -/

/-- Claim C4: `calculate_rfm_scores` degrades gracefully on an empty
transaction list, and on one whose records all lack a non-empty
`customer_id`; but `get_segment_summary` applied to an empty score list hits
`df["segment"]` on the column-less `pd.DataFrame([])` and raises `KeyError`
(the `none` execution) instead of returning an empty mapping. -/
theorem empty_input_behavior :
    (∀ reference_date : Int, calculate_rfm_scores reference_date [] = []) ∧
    (∀ (reference_date : Int) (transactions : List Transaction),
      (∀ t ∈ transactions, t.customer_id = "") →
      calculate_rfm_scores reference_date transactions = []) ∧
    get_segment_summary [] = none := by
  have hgen : ∀ (reference_date : Int) (transactions : List Transaction),
      (∀ t ∈ transactions, t.customer_id = "") →
      calculate_rfm_scores reference_date transactions = [] := by
    intro reference_date transactions h
    have hids : customerIds transactions = [] := by
      unfold customerIds
      have hfm : transactions.filterMap
          (fun t => if t.customer_id ≠ "" then some t.customer_id else none) = [] := by
        simp only [List.filterMap_eq_nil_iff]
        intro t ht
        simp [h t ht]
      rw [hfm]
      rfl
    unfold calculate_rfm_scores
    rw [if_pos hids]
  exact ⟨fun reference_date => hgen reference_date [] (by simp), hgen, rfl⟩

/-- Claim C4, witness: graceful degradation instantiated on a transaction
list whose only record has an empty customer id. -/
theorem empty_input_behavior_witness :
    (∀ t ∈ ([⟨"", some 0, 5⟩] : List Transaction), t.customer_id = "") ∧
    calculate_rfm_scores 0 [⟨"", some 0, 5⟩] = [] :=
  ⟨by decide, empty_input_behavior.2.1 0 [⟨"", some 0, 5⟩] (by decide)⟩

/-! ## Claim C3 -/

/-- A 2-decimal-place amount of 20 significant digits.  Its exact decimal
sum cannot survive the `float(monetary)` conversion at the head of the
quantile stage: an IEEE-754 double carries at most 17 significant decimal
digits, and Python's shortest round-trip `repr` (the string from which the
pipeline re-parses `Decimal(str(row["monetary"]))`) emits at most 17
significant digits. -/
def c3Amount : Rat := 12345678901234567891 / 100

/-- The single-transaction input exhibiting the divergence of claim C3. -/
def c3Transactions : List Transaction := [⟨"CUST001", some 0, c3Amount⟩]

/-- Claim C3: `calculate_monetary` itself computes the exact decimal sum,
but that sum is expressible by no decimal string of at most 17 significant
digits (no `m * 10^e` with `|m| < 10^17`), so the `float(monetary)`
round-trip in `calculate_rfm_scores` (17-significant-digit shortest-repr
doubles) cannot carry it into quantile computation or onto the emitted
RFMScore exactly — contradicting the never-passes-through-float claim. -/
theorem monetary_float_roundtrip_divergence :
    calculate_monetary "CUST001" c3Transactions = c3Amount ∧
    ∀ (m e : Int), |m| < 10 ^ 17 → (m : Rat) * (10 : Rat) ^ e ≠ c3Amount := by
  constructor
  · simp [calculate_monetary, c3Transactions, List.filter]
  · intro m e hm heq
    have habs : -100000000000000000 < m ∧ m < 100000000000000000 := by
      have h1 := abs_lt.mp hm
      norm_num at h1
      exact h1
    have h10 : (10 : Rat) ≠ 0 := by norm_num
    have key : (m : Rat) * (10 : Rat) ^ (e + 2) = (12345678901234567891 : Rat) := by
      rw [zpow_add₀ h10, show ((10 : Rat) ^ (2 : Int)) = 100 from by norm_num,
        ← mul_assoc, heq]
      norm_num [c3Amount]
    rcases le_or_lt 0 (e + 2) with hk | hk
    · obtain ⟨n, hn⟩ := Int.eq_ofNat_of_zero_le hk
      rw [hn, zpow_natCast] at key
      have keyz : m * (10 : Int) ^ n = 12345678901234567891 := by exact_mod_cast key
      cases n with
      | zero => simp at keyz; omega
      | succ j =>
        have hdvd : (10 : Int) ∣ 12345678901234567891 :=
          ⟨m * 10 ^ j, by rw [← keyz]; ring⟩
        omega
    · have hn1 : (1 : Int) ≤ -(e + 2) := by omega
      obtain ⟨n, hn⟩ := Int.eq_ofNat_of_zero_le (by omega : (0 : Int) ≤ -(e + 2))
      have hze : e + 2 = -(n : Int) := by omega
      have hnge : 1 ≤ n := by omega
      rw [hze, zpow_neg, zpow_natCast] at key
      have hpow : ((10 : Rat) ^ n) ≠ 0 := by positivity
      have key2 : (m : Rat) = 12345678901234567891 * (10 : Rat) ^ n := by
        field_simp at key
        linarith [key]
      have keyz : m = 12345678901234567891 * (10 : Int) ^ n := by exact_mod_cast key2
      have hpow10 : (10 : Int) ≤ 10 ^ n := by
        calc (10 : Int) = 10 ^ 1 := (pow_one 10).symm
        _ ≤ 10 ^ n := pow_le_pow_right₀ (by norm_num) hnge
      have hbig : (12345678901234567891 : Int) * 10 ≤ 12345678901234567891 * 10 ^ n :=
        mul_le_mul_of_nonneg_left hpow10 (by norm_num)
      omega

/-- Claim C3, witness: the impossibility statement instantiated at the
17-digit mantissa 0. -/
theorem monetary_float_roundtrip_divergence_witness :
    |(0 : Int)| < 10 ^ 17 ∧ ((0 : Int) : Rat) * (10 : Rat) ^ (0 : Int) ≠ c3Amount :=
  ⟨by norm_num, monetary_float_roundtrip_divergence.2 0 0 (by norm_num)⟩

/-! ## The Python `max(..., key=...)` semantics -/

theorem foldl_max_mem (l : List Transaction) (t0 : Transaction) :
    l.foldl (fun best x => if dateKey best < dateKey x then x else best) t0 ∈ t0 :: l := by
  induction l generalizing t0 with
  | nil => simp
  | cons x xs ih =>
    have h := ih (if dateKey t0 < dateKey x then x else t0)
    simp only [List.foldl_cons]
    rcases List.mem_cons.mp h with h1 | h1
    · rw [h1]
      split_ifs <;> simp
    · exact List.mem_cons_of_mem _ (List.mem_cons_of_mem _ h1)

theorem foldl_max_ge (l : List Transaction) (t0 : Transaction) :
    ∀ x ∈ t0 :: l,
      dateKey x ≤
        dateKey (l.foldl (fun best y => if dateKey best < dateKey y then y else best) t0) := by
  induction l generalizing t0 with
  | nil =>
    intro x hx
    simp only [List.mem_singleton] at hx
    subst hx
    simp
  | cons y ys ih =>
    intro x hx
    simp only [List.foldl_cons]
    have h0 : dateKey t0 ≤ dateKey (if dateKey t0 < dateKey y then y else t0) := by
      split_ifs with h
      · exact le_of_lt h
      · exact le_refl _
    have hy : dateKey y ≤ dateKey (if dateKey t0 < dateKey y then y else t0) := by
      split_ifs with h
      · exact le_refl _
      · exact not_lt.mp h
    rcases List.mem_cons.mp hx with rfl | hx2
    · exact le_trans h0 (ih _ _ (List.mem_cons_self _ _))
    rcases List.mem_cons.mp hx2 with rfl | hx3
    · exact le_trans hy (ih _ _ (List.mem_cons_self _ _))
    · exact ih _ x (List.mem_cons_of_mem _ hx3)

theorem maxByDate_spec {l : List Transaction} {t : Transaction} (h : maxByDate l = some t) :
    t ∈ l ∧ ∀ x ∈ l, dateKey x ≤ dateKey t := by
  cases l with
  | nil => simp [maxByDate] at h
  | cons a as =>
    have ht : as.foldl (fun best y => if dateKey best < dateKey y then y else best) a = t := by
      simpa [maxByDate] using h
    constructor
    · rw [← ht]
      exact foldl_max_mem as a
    · intro x hx
      rw [← ht]
      exact foldl_max_ge as a x hx

theorem maxByDate_eq_none {l : List Transaction} : maxByDate l = none ↔ l = [] := by
  cases l <;> simp [maxByDate]

/-! ## Claim C9 -/

/-- The `transaction_date`s of the records matching a customer id
(spec-side restatement of "that customer's records"). -/
def matchingDates (customer_id : String) (transactions : List Transaction) : List Int :=
  (transactions.filter (fun t => t.customer_id == customer_id)).filterMap
    (fun t => t.transaction_date)

/-- Claim C9: for a customer with at least one matching dated record,
`calculate_recency` returns exactly the whole-day difference
`(reference_date - max transaction_date).days` (ties among maximal dates
are immaterial since only the date is used), and the value is negative when
`reference_date` precedes that maximal date. -/
theorem recency_days_since_max :
    ∀ (reference_date : Int) (customer_id : String) (transactions : List Transaction)
      (dmax : Int),
      (∀ t ∈ transactions, t.customer_id = customer_id →
        (t.transaction_date).isSome = true) →
      (matchingDates customer_id transactions).maximum = (dmax : WithBot Int) →
      calculate_recency reference_date customer_id transactions =
        some (daysBetween reference_date dmax) ∧
      (reference_date < dmax → daysBetween reference_date dmax < 0) := by
  intro reference_date customer_id ts dmax hdates hmax
  rw [List.maximum_eq_coe_iff] at hmax
  obtain ⟨hdmem, hdub⟩ := hmax
  simp only [matchingDates] at hdmem hdub
  obtain ⟨t1, ht1mem, ht1date⟩ := List.mem_filterMap.mp hdmem
  have hne : ts.filter (fun t => t.customer_id == customer_id) ≠ [] := by
    intro hcontra
    rw [hcontra] at ht1mem
    exact absurd ht1mem (List.not_mem_nil t1)
  obtain ⟨tmax, htmax⟩ :
      ∃ tmax, maxByDate (ts.filter (fun t => t.customer_id == customer_id)) = some tmax := by
    cases hmb : maxByDate (ts.filter (fun t => t.customer_id == customer_id)) with
    | none => exact absurd (maxByDate_eq_none.mp hmb) hne
    | some t => exact ⟨t, rfl⟩
  obtain ⟨htmem, htge⟩ := maxByDate_spec htmax
  have htmax_cid : tmax.customer_id = customer_id := by
    have h2 := (List.mem_filter.mp htmem).2
    exact beq_iff_eq.mp h2
  have htmemts : tmax ∈ ts := (List.mem_filter.mp htmem).1
  obtain ⟨d, hd⟩ := Option.isSome_iff_exists.mp (hdates tmax htmemts htmax_cid)
  have hdub_d : d ≤ dmax := hdub d (List.mem_filterMap.mpr ⟨tmax, htmem, hd⟩)
  have hdmax_le : dmax ≤ d := by
    have h1 := htge t1 ht1mem
    have hk1 : dateKey t1 = (dmax : WithBot Int) := by simp [dateKey, ht1date]
    have hk2 : dateKey tmax = (d : WithBot Int) := by simp [dateKey, hd]
    rw [hk1, hk2] at h1
    exact_mod_cast h1
  have hdd : d = dmax := le_antisymm hdub_d hdmax_le
  subst hdd
  constructor
  · simp only [calculate_recency, htmax, hd]
  · intro hlt
    exact Int.fdiv_neg' (by omega) (by norm_num)

/-- Two dated transactions of one customer, the later one a day after the
reference date used below. -/
def c9Transactions : List Transaction :=
  [⟨"A", some 0, 5⟩, ⟨"A", some 86400, 3⟩]

/-- Claim C9, witness: recency of customer "A" against reference date 0 is
the negative whole-day difference -1 to the maximal date 86400. -/
theorem recency_days_since_max_witness :
    (∀ t ∈ c9Transactions, t.customer_id = "A" → (t.transaction_date).isSome = true) ∧
    (matchingDates "A" c9Transactions).maximum = ((86400 : Int) : WithBot Int) ∧
    calculate_recency 0 "A" c9Transactions = some (-1) ∧
    daysBetween 0 86400 < 0 := by
  refine ⟨by decide, by decide, ?_, ?_⟩
  · have h := (recency_days_since_max 0 "A" c9Transactions 86400 (by decide) (by decide)).1
    rw [show daysBetween 0 86400 = -1 from by decide] at h
    exact h
  · exact (recency_days_since_max 0 "A" c9Transactions 86400 (by decide) (by decide)).2
      (by norm_num)

/-! ## Claim C10 -/

theorem filterMap_map_id {α β : Type} (g : α → Option β) (pr : β → α) (l : List α)
    (h : ∀ a ∈ l, ∃ b, g a = some b ∧ pr b = a) :
    (l.filterMap g).map pr = l := by
  induction l with
  | nil => rfl
  | cons c cs ih =>
    obtain ⟨b, hb, hpb⟩ := h c (List.mem_cons_self _ _)
    simp only [List.filterMap_cons, hb, List.map_cons, hpb]
    rw [ih (fun a ha => h a (List.mem_cons_of_mem _ ha))]

theorem mem_customerIds {cid : String} {ts : List Transaction} :
    cid ∈ customerIds ts ↔ cid ≠ "" ∧ ∃ t ∈ ts, t.customer_id = cid := by
  unfold customerIds
  rw [List.mem_dedup, List.mem_filterMap]
  constructor
  · rintro ⟨t, ht, hsome⟩
    by_cases h : t.customer_id = ""
    · simp [h] at hsome
    · rw [if_pos h] at hsome
      have heq := Option.some.inj hsome
      exact ⟨heq ▸ h, t, ht, heq⟩
  · rintro ⟨hne, t, ht, hcid⟩
    refine ⟨t, ht, ?_⟩
    rw [hcid, if_pos hne]

theorem recency_isSome {reference_date : Int} {cid : String} {ts : List Transaction}
    (hdated : ∀ t ∈ ts, (t.transaction_date).isSome = true)
    (hex : ∃ t ∈ ts, t.customer_id = cid) :
    ∃ r : Int, calculate_recency reference_date cid ts = some r := by
  obtain ⟨t, ht, hcid⟩ := hex
  have hmem : t ∈ ts.filter (fun t => t.customer_id == cid) :=
    List.mem_filter.mpr ⟨ht, beq_iff_eq.mpr hcid⟩
  have hne : ts.filter (fun t => t.customer_id == cid) ≠ [] := by
    intro hc
    rw [hc] at hmem
    exact absurd hmem (List.not_mem_nil t)
  obtain ⟨tmax, htmax⟩ :
      ∃ tm, maxByDate (ts.filter (fun t => t.customer_id == cid)) = some tm := by
    cases hmb : maxByDate (ts.filter (fun t => t.customer_id == cid)) with
    | none => exact absurd (maxByDate_eq_none.mp hmb) hne
    | some tm => exact ⟨tm, rfl⟩
  have htmemts : tmax ∈ ts := (List.mem_filter.mp (maxByDate_spec htmax).1).1
  obtain ⟨d, hd⟩ := Option.isSome_iff_exists.mp (hdated tmax htmemts)
  exact ⟨daysBetween reference_date d, by simp only [calculate_recency, htmax, hd]⟩

theorem rfmRows_ids (reference_date : Int) (ts : List Transaction)
    (hdated : ∀ t ∈ ts, (t.transaction_date).isSome = true) :
    (rfmRows reference_date ts).map (fun row => row.customer_id) = customerIds ts := by
  unfold rfmRows
  apply filterMap_map_id
  intro cid hcid
  obtain ⟨hne, hex⟩ := mem_customerIds.mp hcid
  obtain ⟨r, hr⟩ := recency_isSome hdated hex
  refine ⟨⟨cid, r, calculate_frequency cid ts, calculate_monetary cid ts⟩, ?_, rfl⟩
  dsimp only
  rw [hr]

theorem mem_rfmRows_ids {reference_date : Int} {ts : List Transaction} {row : RfmRow}
    (h : row ∈ rfmRows reference_date ts) : row.customer_id ∈ customerIds ts := by
  unfold rfmRows at h
  obtain ⟨cid, hcid, hg⟩ := List.mem_filterMap.mp h
  cases hrec : calculate_recency reference_date cid ts with
  | none =>
    rw [hrec] at hg
    simp at hg
  | some r =>
    rw [hrec] at hg
    simp only [Option.some.injEq] at hg
    rw [← hg]
    exact hcid

/-- Claim C10: when every record carries a `transaction_date`, every
distinct non-empty customer id of the input yields exactly one emitted
RFMScore — the emitted customer ids are precisely the duplicate-free
`customerIds` list, so the infinite-recency defensive skip never fires;
and a customer with zero matching transactions gets the `none`
(`float('inf')`) sentinel from `calculate_recency` and is entirely absent
from the output. -/
theorem defensive_skip_unreachable :
    ∀ (reference_date : Int) (transactions : List Transaction),
      ((∀ t ∈ transactions, (t.transaction_date).isSome = true) →
        (calculate_rfm_scores reference_date transactions).map (fun s => s.customer_id) =
          customerIds transactions ∧
        (customerIds transactions).Nodup) ∧
      ∀ customer_id : String,
        (∀ t ∈ transactions, t.customer_id ≠ customer_id) →
        calculate_recency reference_date customer_id transactions = none ∧
        ∀ s ∈ calculate_rfm_scores reference_date transactions,
          s.customer_id ≠ customer_id := by
  intro reference_date transactions
  constructor
  · intro hdated
    refine ⟨?_, List.nodup_dedup _⟩
    rw [calculate_rfm_scores_eq_map, List.map_map]
    exact rfmRows_ids reference_date transactions hdated
  · intro customer_id hnone
    constructor
    · have hfil : transactions.filter (fun t => t.customer_id == customer_id) = [] := by
        rw [List.filter_eq_nil_iff]
        intro t ht
        simp only [beq_iff_eq]
        exact hnone t ht
      simp [calculate_recency, hfil, maxByDate]
    · intro s hs
      obtain ⟨row, hrow, rfl⟩ := mem_calculate_rfm_scores hs
      have hrowid := mem_rfmRows_ids hrow
      obtain ⟨-, t, ht, hcid2⟩ := mem_customerIds.mp hrowid
      intro hc
      simp only [scoreRow] at hc
      exact hnone t ht (by rw [hcid2]; exact hc)

/-- Claim C10, witness: on the sample transactions every id is scored
exactly once, and the absent customer "C" gets the infinity sentinel. -/
theorem defensive_skip_unreachable_witness :
    (∀ t ∈ sampleTransactions, (t.transaction_date).isSome = true) ∧
    (calculate_rfm_scores 0 sampleTransactions).map (fun s => s.customer_id) =
      customerIds sampleTransactions ∧
    calculate_recency 0 "C" sampleTransactions = none :=
  ⟨by decide,
   ((defensive_skip_unreachable 0 sampleTransactions).1 (by decide)).1,
   ((defensive_skip_unreachable 0 sampleTransactions).2 "C" (by decide)).1⟩
